import Mathlib

/-!
Verification development for the sham shared-memory queue library.

The definitions below are shallow embeddings of the C++ sources:
- `ShamVar` embeds `src/sham/include/sham/queue_mpmc_var.h` (class `sham::MpmcQueue<kCapacity>`,
  the variable-size-element MPMC byte ring), executed under a sequential (single-thread)
  interleaving in which each atomic operation runs uninterrupted.
- `ShamFixed` embeds `src/sham/include/sham/queue_mpmc.h` (class `sham::mpmc::Queue<T, kCapacity>`).
- `ShamShm` embeds `src/sham/include/sham/shared_memory_buffer.h` and the POSIX branch of
  `src/sham/include/sham/shared_memory.h`.
- `ShamLayout` computes the byte layout of `sham::mpmc::Queue` per the C++ layout rules
  (each member offset is the previous end rounded up to the member's alignment; the
  struct size is the last end rounded up to the struct's alignment).
-/

set_option maxRecDepth 40000
set_option linter.unusedVariables false

namespace ShamVar

/-- Modulus of the C++ `size_t` type (64-bit), the value `2 ^ 64`. -/
def M64 : Nat := 18446744073709551616

/-- A byte of `data_`. The C++ type is `uint8_t`; every byte the code writes is < 256. -/
abbrev Byte := Nat

/-- The `data_` array together with the addresses past its end. Index `j < kCapacity` is
`data_[j]`; an index `j ≥ kCapacity` is memory past the end of the array (writing or
reading there is undefined behaviour in the C++ source; the model keeps those bytes so
that the single-span `memcpy` of the source stays a total function, and records the
overrun in a flag). -/
abbrev Mem := Nat → Byte

/-- Source constant `kCacheLineSize = 128`. -/
def kCacheLineSize : Nat := 128

/-- Source `align_to_cache_line(size) = (size + kCacheLineSize - 1) & ~(kCacheLineSize - 1)`.
For a natural number `x`, `x & ~127` equals `x - x % 128`, which is the form used here. -/
def align_to_cache_line (size : Nat) : Nat :=
  (size + kCacheLineSize - 1) - (size + kCacheLineSize - 1) % kCacheLineSize

/-- Source `idx(i) = i & (kCapacity - 1)`; `N` is the template argument `kCapacity`. -/
def idx (N i : Nat) : Nat := i &&& (N - 1)

/-- Masking of the two low cursor bits, `i & ~static_cast<size_t>(3)`, as performed on
`head_` snapshots in `try_push`/`size` and on the argument of `get_header`.
For a natural number, `i & ~3 = i - i % 4`. -/
def maskLow2 (i : Nat) : Nat := i - i % 4

/-- State of one `sham::MpmcQueue<kCapacity>` object: the three cursors, the two debug
counters, and the byte memory holding `data_` (headers live in-band inside `mem`).
`oob` is an instrumentation flag: it becomes true when a payload `memcpy` of the source
touches an index `≥ kCapacity`, i.e. runs past the end of `data_`. -/
structure QState where
  head : Nat
  tail : Nat
  read : Nat
  num_pushs : Nat
  num_pops : Nat
  mem : Mem
  oob : Bool

/-- The constructor `MpmcQueue() : head_(1), tail_(0), read_(0)` with
`memset(data_, 0, sizeof(data_))` (the subsequent store of `kReadyToFill = 0` to
`data_[0]` is a no-op on zeroed memory). -/
def initState : QState :=
  { head := 1, tail := 0, read := 0, num_pushs := 0, num_pops := 0,
    mem := fun _ => 0, oob := false }

/-- Abnormal outcomes of an operation in the sequential model. -/
inductive Err where
  /-- The `CHECK` inside `get_header` failed: `do_abort()` is called. -/
  | checkFailed
  /-- An unbounded spin: the `while (head_ == read)` wait of `try_pop`, a CAS retry loop
  that can never be won in the sequential interleaving, or loop fuel exhaustion. -/
  | hang
deriving DecidableEq

/-- Source `get_header(index)`: masks the two low bits, reduces modulo the ring size, and
checks 128-byte alignment (`CHECK((idx(index) & (kCacheLineSize - 1)) == 0)`); aborts on
failure. Returns the byte offset of the `Header` inside `data_`. -/
def get_header (N i : Nat) : Except Err Nat :=
  let p := idx N (maskLow2 i)
  if p &&& (kCacheLineSize - 1) = 0 then .ok p else .error .checkFailed

/-- Write of a list of bytes at offset `off`, the semantics of one `memcpy` span. -/
def writeBytes (m : Mem) (off : Nat) (src : List Byte) : Mem :=
  fun j => if off ≤ j ∧ j < off + src.length then src.getD (j - off) 0 else m j

/-- Little-endian two's-complement encoding of the `std::atomic<int32_t> size` field of a
`Header` into its four bytes. -/
def encodeInt32 (v : Int) : List Byte :=
  let n : Nat := (v % (4294967296 : Int)).toNat
  [n % 256, n / 256 % 256, n / 65536 % 256, n / 16777216 % 256]

/-- Reading four bytes back as a signed 32-bit value. -/
def decodeInt32 (b0 b1 b2 b3 : Byte) : Int :=
  let n : Nat := (b0 + 256 * b1 + 65536 * b2 + 16777216 * b3) % 4294967296
  if n < 2147483648 then (n : Int) else (n : Int) - 4294967296

/-- Load of `header->size` through a pointer previously obtained from `get_header`. -/
def headerLoad (m : Mem) (p : Nat) : Int :=
  decodeInt32 (m p) (m (p + 1)) (m (p + 2)) (m (p + 3))

/-- Store to `header->size` through a pointer previously obtained from `get_header`. -/
def headerStore (m : Mem) (p : Nat) (v : Int) : Mem :=
  writeBytes m p (encodeInt32 v)

/-- One pass of the `for (;;)` loop of `shrink()`, with fuel bounding the number of
iterations. In the sequential model the `compare_exchange_strong` on `tail_` always
succeeds, so the CAS-failure `break` is never taken; every iteration either stops at a
non-negative header or advances `tail_` by at least one cache line, and a call reclaims
at most `kCapacity` bytes, so `kCapacity / 128 + 1` fuel is never exhausted from a
reachable state. -/
def shrinkLoop (N : Nat) : Nat → QState → Nat → Except Err (QState × Nat)
  | 0, _, _ => .error .hang
  | fuel + 1, st, reclaimed =>
    match get_header N st.tail with
    | .error e => .error e
    | .ok p =>
      let size := headerLoad st.mem p
      if 0 ≤ size then .ok (st, reclaimed)
      else
        let new_tail := st.tail + align_to_cache_line ((-size).toNat + 4)
        shrinkLoop N fuel { st with tail := new_tail } (reclaimed + (new_tail - st.tail))

/-- Source `shrink()`: returns the reclaimed byte count together with the new state. -/
def shrink (N : Nat) (st : QState) : Except Err (QState × Nat) :=
  shrinkLoop N (N / kCacheLineSize + 1) st 0

/-- One pass of the `for (;;)` loop of `try_push(data)`. Per source order on the CAS-win
path: increment `num_pushs_`, zero the header at `new_head` (via `get_header`), release
`new_head + 1` into `head_`, copy the payload with a single `memcpy` starting at
`header + 1` (no wrap handling: the span may run past the end of `data_`, which sets the
`oob` flag), and finally publish the byte count into the block's header. In the
sequential model the CAS on `head_` fails only if `head_` is not of the form
`masked + 1`, and then retries forever on the unchanged state, which fuel exhaustion
reports as a hang. -/
def tryPushLoop (N : Nat) : Nat → QState → List Byte → Except Err (Bool × QState)
  | 0, _, _ => .error .hang
  | fuel + 1, st, data =>
    let block_size := align_to_cache_line (data.length + 4)
    let tail := st.tail
    let head := maskLow2 st.head
    if head + block_size + 4 - tail > N then
      match shrink N st with
      | .error e => .error e
      | .ok (st', reclaimed) =>
        if 0 < reclaimed then tryPushLoop N fuel st' data else .ok (false, st')
    else
      let new_head := head + block_size
      if st.head = head + 1 then
        match get_header N new_head with
        | .error e => .error e
        | .ok pNext =>
          let m1 := headerStore st.mem pNext 0
          let st1 := { st with num_pushs := st.num_pushs + 1, mem := m1,
                               head := new_head + 1 }
          match get_header N (head + 1) with
          | .error e => .error e
          | .ok p =>
            let m2 := writeBytes st1.mem (p + 4) data
            let m3 := headerStore m2 p (data.length : Int)
            .ok (true, { st1 with mem := m3,
                                  oob := st1.oob || decide (N < p + 4 + data.length) })
      else
        tryPushLoop N fuel st data

/-- Source `try_push(data)`. The subtraction in the space check is the `size_t`
subtraction of the source; under the queue invariant `tail ≤ head` (masked) the natural
subtraction used here agrees with it. -/
def try_push (N : Nat) (st : QState) (data : List Byte) : Except Err (Bool × QState) :=
  tryPushLoop N (N / kCacheLineSize + 2) st data

/-- Source `try_pop(buffer)`. The `while (head_.load() == read)` spin never ends in the
sequential model when the two values are equal, which the model reports as a hang; the
CAS on `read_` always succeeds sequentially. On success the caller's buffer is resized
to `size` and overwritten by a single `memcpy` from `header + 1` (again no wrap
handling), the header is tombstoned with `-size`, and `shrink()` runs. On the `size ≤ 0`
path the caller's buffer is returned untouched. -/
def try_pop (N : Nat) (st : QState) (buffer : List Byte) :
    Except Err (Bool × QState × List Byte) :=
  match get_header N st.read with
  | .error e => .error e
  | .ok p =>
    if st.head = st.read then .error .hang
    else
      let size := headerLoad st.mem p
      if size ≤ 0 then .ok (false, st, buffer)
      else
        let new_read := st.read + align_to_cache_line (size.toNat + 4)
        let out := (List.range size.toNat).map (fun j => st.mem (p + 4 + j))
        let st1 := { st with read := new_read, num_pops := st.num_pops + 1,
                             mem := headerStore st.mem p (-size),
                             oob := st.oob || decide (N < p + 4 + size.toNat) }
        match shrink N st1 with
        | .error e => .error e
        | .ok (st2, _) => .ok (true, st2, out)

/-- Source `size()`: runs `shrink()`, then returns
`head_.load() & mask - tail_.load()` with `mask = ~static_cast<size_t>(3)`.
In C++ `&` binds looser than `-`, so this expression computes
`head & ((mask - tail) mod 2^64)` in `size_t` arithmetic, exactly as modelled here. -/
def size (N : Nat) (st : QState) : Except Err (Nat × QState) :=
  match shrink N st with
  | .error e => .error e
  | .ok (st', _) =>
    .ok ((st'.head % M64) &&& ((M64 - 4 + (M64 - st'.tail % M64)) % M64), st')

/-- Source `empty()`, defined as `size() == 0`. -/
def empty (N : Nat) (st : QState) : Except Err (Bool × QState) :=
  match size N st with
  | .error e => .error e
  | .ok (n, st') => .ok (decide (n = 0), st')

/-- Modelled from the spec: the size formula the specification states for the
variable-size queue, `(head & ~1) − tail`, with the head masked of its stabilising bit
before the subtraction. Used only to compare against `ShamVar.size`. -/
def spec_size (head tail : Nat) : Nat := (head - head % 2) - tail

end ShamVar

example : ShamVar.align_to_cache_line 9 = 128 := by decide
example : ShamVar.align_to_cache_line 204 = 256 := by decide
example : ShamVar.get_header 1024 129 = .ok 128 := rfl
example : ShamVar.decodeInt32 251 255 255 255 = -5 := by decide

namespace ShamVar

/-- The byte record `[1,2,3,4,5]` of the spec's single-record scenario. -/
def d5 : List Byte := [1, 2, 3, 4, 5]

/-- Concrete run on a 1024-byte ring: push `[1,2,3,4,5]` twice, pop once, call `size()`.
Reports the three operation results, the popped bytes, the final `head_`, `tail_`,
`read_` cursors, and the value `size()` returned. -/
def c1run : Except Err (Bool × Bool × Bool × List Byte × Nat × Nat × Nat × Nat) := do
  let (b1, s1) ← try_push 1024 initState d5
  let (b2, s2) ← try_push 1024 s1 d5
  let (b3, s3, out) ← try_pop 1024 s2 []
  let (n, s4) ← size 1024 s3
  pure (b1, b2, b3, out, s4.head, s4.tail, s4.read, n)

/-- C1. The claim states `size() = (head & ~1) − tail` (after the internal `shrink`). The
source line `return head_.load(...)&mask - tail_.load(...)` computes
`head & (mask − tail)` instead, because `&` binds looser than `-` in C++. At the
reachable state `head_ = 257`, `tail_ = 128` (two 5-byte records pushed, one popped),
`size()` returns `257 & (2^64 − 132) = 256`, while the claimed formula gives
`(257 & ~1) − 128 = 128`, which is also the true byte count of the one unpopped block. -/
theorem c1_size_operator_precedence :
    c1run = .ok (true, true, true, [1, 2, 3, 4, 5], 257, 128, 128, 256) ∧
    spec_size 257 128 = 128 ∧ (256 : Nat) ≠ 128 :=
  ⟨rfl, by decide, by decide⟩

/-- Concrete run on a 512-byte ring: push three 5-byte records (blocks `[0,128)`,
`[128,256)`, `[256,384)`), pop two of them (`tail_` reclaims to 256), then push a
200-byte record. Its block is the cursor range `[384, 640)`: the header goes to ring
offset 384 and the payload occupies offsets `388 .. 588`, which runs past the end of
`data_[512]`. Reports whether the five preparatory operations succeeded, the result of
the wrapping push, the final `head_` and `tail_`, and the out-of-bounds flag. -/
def c2run : Except Err (Bool × Bool × Nat × Nat × Bool) := do
  let (a1, s1) ← try_push 512 initState d5
  let (a2, s2) ← try_push 512 s1 d5
  let (a3, s3) ← try_push 512 s2 d5
  let (b1, s4, _o1) ← try_pop 512 s3 []
  let (b2, s5, _o2) ← try_pop 512 s4 []
  let (a4, s6) ← try_push 512 s5 (List.replicate 200 42)
  pure (a1 && a2 && a3 && b1 && b2, a4, s6.head, s6.tail, s6.oob)

/-- C2. The claim states that the payload copy is performed as two contiguous `memcpy`
spans on wrap-around, so popped bytes always equal pushed bytes. The source performs a
single `memcpy(header + 1, data.data(), data.size())` with no wrap handling (a two-span
helper exists only as commented-out code). This run reaches a `try_push` that is
accepted (returns `true`) whose single copy span `[388, 588)` runs past the end of the
512-byte `data_` array: the `oob` flag of the final state is `true`, i.e. the copy was
not performed as two in-ring spans and the C++ write is out of bounds. -/
theorem c2_wraparound_single_memcpy_oob :
    c2run = .ok (true, true, 641, 256, true) ∧ 384 + 4 + 200 > 512 :=
  ⟨rfl, by decide⟩

/-- Helper for C5: one iteration of the `try_push` loop returns `false` as soon as the
space check fails and `shrink` reclaims nothing. -/
theorem tryPushLoop_insufficient (N fuel : Nat) (st : QState) (data : List Byte)
    (hchk : maskLow2 st.head + align_to_cache_line (data.length + 4) + 4 - st.tail > N)
    (hshr : shrink N st = .ok (st, 0)) :
    tryPushLoop N (fuel + 1) st data = .ok (false, st) := by
  simp only [tryPushLoop]
  rw [if_pos hchk, hshr]
  rfl

/-- C5. If the space check of `try_push` fails — with the head snapshot masked of its low
bits, `head + block + sizeof(Header) − tail > kCapacity` for the cache-line-aligned
block size — and `shrink` can reclaim no space, then `try_push` returns `false` and
leaves the state unchanged. Moreover, under the queue invariant
`tail ≤ head ∧ head − tail ≤ kCapacity` (masked head), the failing check is equivalent
to fewer than `block + sizeof(Header)` bytes being free. -/
theorem c5_try_push_insufficient_returns_false (N : Nat) (st : QState) (data : List Byte)
    (hchk : maskLow2 st.head + align_to_cache_line (data.length + 4) + 4 - st.tail > N)
    (hshr : shrink N st = .ok (st, 0))
    (hlo : st.tail ≤ maskLow2 st.head)
    (hhi : maskLow2 st.head - st.tail ≤ N) :
    try_push N st data = .ok (false, st) ∧
    N - (maskLow2 st.head - st.tail) < align_to_cache_line (data.length + 4) + 4 := by
  constructor
  · show tryPushLoop N (N / kCacheLineSize + 1 + 1) st data = .ok (false, st)
    exact tryPushLoop_insufficient N (N / kCacheLineSize + 1) st data hchk hshr
  · omega

/-- Witness for C5 at a concrete input: a fresh 128-byte ring and a 125-byte record,
whose block needs 256 bytes plus a trailing header. -/
theorem c5_witness :
    try_push 128 initState (List.replicate 125 7) = .ok (false, initState) ∧
    128 - (maskLow2 initState.head - initState.tail) <
      align_to_cache_line ((List.replicate 125 7).length + 4) + 4 :=
  c5_try_push_insufficient_returns_false 128 initState (List.replicate 125 7)
    (by decide) rfl (by decide) (by decide)

/-- C6. A `try_pop` from an empty queue — the header at the read cursor is aligned, the
raw `head_` differs from `read_` so the spin exits, and the header at `read_` holds no
published record (`size ≤ 0`) — returns `false`, leaves the queue state unchanged and
returns the caller's buffer untouched. -/
theorem c6_try_pop_empty_returns_false (N : Nat) (st : QState) (buffer : List Byte)
    (hck : idx N (maskLow2 st.read) &&& (kCacheLineSize - 1) = 0)
    (hne : st.head ≠ st.read)
    (hsz : headerLoad st.mem (idx N (maskLow2 st.read)) ≤ 0) :
    try_pop N st buffer = .ok (false, st, buffer) := by
  unfold try_pop get_header
  rw [if_pos hck]
  show (if st.head = st.read then _ else _) = _
  rw [if_neg hne]
  show (if _ ≤ 0 then _ else _) = _
  rw [if_pos hsz]

/-- Witness for C6 at a concrete input: a freshly constructed 128-byte ring, whose
header at `read_ = 0` is zero and whose `head_ = 1` differs from `read_`. -/
theorem c6_witness : try_pop 128 initState [] = .ok (false, initState, []) :=
  c6_try_pop_empty_returns_false 128 initState [] (by decide) (by decide) (by decide)

/-- Cursor well-formedness maintained by every operation of the variable-size queue:
`head_` is one past a cache-line multiple (its low stabilising bit set), while `tail_`
and `read_` are cache-line multiples. -/
def WF (st : QState) : Prop :=
  st.head % 128 = 1 ∧ st.tail % 128 = 0 ∧ st.read % 128 = 0

theorem wf_init : WF initState := by
  unfold WF initState
  refine ⟨rfl, rfl, rfl⟩

theorem align_mod_128 (s : Nat) : align_to_cache_line s % 128 = 0 := by
  unfold align_to_cache_line kCacheLineSize
  omega

theorem and127_eq_mod (x : Nat) : x &&& 127 = x % 128 := by
  have h := Nat.and_pow_two_sub_one_eq_mod x 7
  norm_num at h
  exact h

/-- When the masked index is cache-line aligned, the `CHECK` in `get_header` passes and
the returned header offset is the masked index reduced modulo the ring size. -/
theorem get_header_ok (k i : Nat) (hk : 7 ≤ k) (hi : maskLow2 i % 128 = 0) :
    get_header (2 ^ k) i = .ok (maskLow2 i % 2 ^ k) := by
  have hdvd : (128 : Nat) ∣ 2 ^ k := by
    have h := pow_dvd_pow 2 hk
    norm_num at h
    exact h
  simp only [get_header, idx, kCacheLineSize]
  rw [Nat.and_pow_two_sub_one_eq_mod]
  rw [show (128 : Nat) - 1 = 127 by norm_num, and127_eq_mod]
  rw [Nat.mod_mod_of_dvd _ hdvd, hi]
  rfl

/-- The `shrink` loop never fails the `get_header` alignment `CHECK` from a state with a
cache-line-aligned `tail_`, and preserves that alignment together with the other two
cursors. -/
theorem shrinkLoop_spec (k : Nat) (hk : 7 ≤ k) :
    ∀ (fuel : Nat) (st : QState) (acc : Nat), st.tail % 128 = 0 →
      shrinkLoop (2 ^ k) fuel st acc ≠ .error .checkFailed ∧
      (∀ st' r, shrinkLoop (2 ^ k) fuel st acc = .ok (st', r) →
        st'.tail % 128 = 0 ∧ st'.head = st.head ∧ st'.read = st.read) := by
  intro fuel
  induction fuel with
  | zero =>
    intro st acc ht
    constructor
    · intro h
      simp only [shrinkLoop] at h
      exact Err.noConfusion (Except.error.inj h)
    · intro st' r h
      simp only [shrinkLoop] at h
      exact Except.noConfusion h
  | succ fuel ih =>
    intro st acc ht
    have hmask : maskLow2 st.tail = st.tail := by
      unfold maskLow2
      omega
    have hgh : get_header (2 ^ k) st.tail = .ok (st.tail % 2 ^ k) := by
      rw [get_header_ok k st.tail hk (by rw [hmask]; exact ht), hmask]
    simp only [shrinkLoop, hgh]
    split
    · constructor
      · intro h
        exact Except.noConfusion h
      · intro st' r h
        obtain ⟨h1, h2⟩ := Prod.mk.inj (Except.ok.inj h)
        rw [← h1]
        exact ⟨ht, rfl, rfl⟩
    · have ht' : (st.tail + align_to_cache_line ((-headerLoad st.mem (st.tail % 2 ^ k)).toNat + 4)) % 128 = 0 := by
        have ha := align_mod_128 ((-headerLoad st.mem (st.tail % 2 ^ k)).toNat + 4)
        omega
      have hrec := ih { st with tail := st.tail + align_to_cache_line ((-headerLoad st.mem (st.tail % 2 ^ k)).toNat + 4) } (acc + (st.tail + align_to_cache_line ((-headerLoad st.mem (st.tail % 2 ^ k)).toNat + 4) - st.tail)) ht'
      constructor
      · exact hrec.1
      · intro st' r h
        obtain ⟨h1, h2, h3⟩ := hrec.2 st' r h
        exact ⟨h1, h2, h3⟩

/-- The `shrink` entry point inherits the loop properties. -/
theorem shrink_spec (k : Nat) (hk : 7 ≤ k) (st : QState) (ht : st.tail % 128 = 0) :
    shrink (2 ^ k) st ≠ .error .checkFailed ∧
    (∀ st' r, shrink (2 ^ k) st = .ok (st', r) →
      st'.tail % 128 = 0 ∧ st'.head = st.head ∧ st'.read = st.read) := by
  unfold shrink
  exact shrinkLoop_spec k hk (2 ^ k / kCacheLineSize + 1) st 0 ht

/-- The `try_push` loop never fails the `get_header` alignment `CHECK` from a
well-formed state, and every state it returns is again well-formed. -/
theorem tryPushLoop_spec (k : Nat) (hk : 7 ≤ k) :
    ∀ (fuel : Nat) (st : QState) (data : List Byte), WF st →
      tryPushLoop (2 ^ k) fuel st data ≠ .error .checkFailed ∧
      (∀ b st', tryPushLoop (2 ^ k) fuel st data = .ok (b, st') → WF st') := by
  intro fuel
  induction fuel with
  | zero =>
    intro st data hwf
    constructor
    · intro h
      simp only [tryPushLoop] at h
      exact Err.noConfusion (Except.error.inj h)
    · intro b st' h
      simp only [tryPushLoop] at h
      exact Except.noConfusion h
  | succ fuel ih =>
    intro st data hwf
    obtain ⟨hh, ht, hr⟩ := hwf
    simp only [tryPushLoop]
    split
    · obtain ⟨hs1, hs2⟩ := shrink_spec k hk st ht
      cases hs : shrink (2 ^ k) st with
      | error e =>
        simp only [hs]
        constructor
        · intro hcontra
          exact hs1 (by rw [hs, Except.error.inj hcontra])
        · intro b st' habs
          exact Except.noConfusion habs
      | ok p =>
        obtain ⟨st1, r⟩ := p
        obtain ⟨ht1, hh1, hr1⟩ := hs2 st1 r hs
        simp only [hs]
        split
        · exact ih st1 data ⟨by rw [hh1]; exact hh, ht1, by rw [hr1]; exact hr⟩
        · constructor
          · intro habs
            exact Except.noConfusion habs
          · intro b st' hok
            obtain ⟨hb, hst⟩ := Prod.mk.inj (Except.ok.inj hok)
            rw [← hst]
            exact ⟨by rw [hh1]; exact hh, ht1, by rw [hr1]; exact hr⟩
    · split
      · have hm2 : maskLow2 (maskLow2 st.head + align_to_cache_line (data.length + 4)) % 128 = 0 := by
          have ha := align_mod_128 (data.length + 4)
          unfold maskLow2
          omega
        have hm3 : maskLow2 (maskLow2 st.head + 1) % 128 = 0 := by
          unfold maskLow2
          omega
        simp only [get_header_ok k (maskLow2 st.head + align_to_cache_line (data.length + 4)) hk hm2,
          get_header_ok k (maskLow2 st.head + 1) hk hm3]
        constructor
        · intro habs
          exact Except.noConfusion habs
        · intro b st' hok
          obtain ⟨hb, hst⟩ := Prod.mk.inj (Except.ok.inj hok)
          rw [← hst]
          have ha := align_mod_128 (data.length + 4)
          refine ⟨?_, ht, hr⟩
          show (maskLow2 st.head + align_to_cache_line (data.length + 4) + 1) % 128 = 1
          unfold maskLow2
          omega
      · exact ih st data ⟨hh, ht, hr⟩

/-- A `try_pop` never fails the `get_header` alignment `CHECK` from a well-formed state,
and every state it returns is again well-formed. -/
theorem try_pop_spec (k : Nat) (hk : 7 ≤ k) (st : QState) (buffer : List Byte)
    (hwf : WF st) :
    try_pop (2 ^ k) st buffer ≠ .error .checkFailed ∧
    (∀ b st' out, try_pop (2 ^ k) st buffer = .ok (b, st', out) → WF st') := by
  obtain ⟨hh, ht, hr⟩ := hwf
  have hmr : maskLow2 st.read % 128 = 0 := by
    unfold maskLow2
    omega
  simp only [try_pop, get_header_ok k st.read hk hmr]
  split
  · constructor
    · intro h
      exact Err.noConfusion (Except.error.inj h)
    · intro b st' out h
      exact Except.noConfusion h
  · split
    · constructor
      · intro habs
        exact Except.noConfusion habs
      · intro b st' out hok
        obtain ⟨hb, hrest⟩ := Prod.mk.inj (Except.ok.inj hok)
        obtain ⟨hst, hout⟩ := Prod.mk.inj hrest
        rw [← hst]
        exact ⟨hh, ht, hr⟩
    · have hread1 : (st.read + align_to_cache_line ((headerLoad st.mem (maskLow2 st.read % 2 ^ k)).toNat + 4)) % 128 = 0 := by
        have ha := align_mod_128 ((headerLoad st.mem (maskLow2 st.read % 2 ^ k)).toNat + 4)
        omega
      obtain ⟨hs1, hs2⟩ := shrink_spec k hk { st with read := st.read + align_to_cache_line ((headerLoad st.mem (maskLow2 st.read % 2 ^ k)).toNat + 4), num_pops := st.num_pops + 1, mem := headerStore st.mem (maskLow2 st.read % 2 ^ k) (-headerLoad st.mem (maskLow2 st.read % 2 ^ k)), oob := st.oob || decide (2 ^ k < maskLow2 st.read % 2 ^ k + 4 + (headerLoad st.mem (maskLow2 st.read % 2 ^ k)).toNat) } ht
      cases hs : shrink (2 ^ k) { st with read := st.read + align_to_cache_line ((headerLoad st.mem (maskLow2 st.read % 2 ^ k)).toNat + 4), num_pops := st.num_pops + 1, mem := headerStore st.mem (maskLow2 st.read % 2 ^ k) (-headerLoad st.mem (maskLow2 st.read % 2 ^ k)), oob := st.oob || decide (2 ^ k < maskLow2 st.read % 2 ^ k + 4 + (headerLoad st.mem (maskLow2 st.read % 2 ^ k)).toNat) } with
      | error e =>
        simp only [hs]
        constructor
        · intro hcontra
          exact hs1 (by rw [hs, Except.error.inj hcontra])
        · intro b st' out habs
          exact Except.noConfusion habs
      | ok p =>
        obtain ⟨st2, r⟩ := p
        obtain ⟨ht2, hh2, hr2⟩ := hs2 st2 r hs
        simp only [hs]
        constructor
        · intro habs
          exact Except.noConfusion habs
        · intro b st' out hok
          obtain ⟨hb, hrest⟩ := Prod.mk.inj (Except.ok.inj hok)
          obtain ⟨hst, hout⟩ := Prod.mk.inj hrest
          rw [← hst]
          refine ⟨by rw [hh2]; exact hh, ht2, by rw [hr2]; exact hread1⟩

/-- A `size()` call never fails the `get_header` alignment `CHECK` from a well-formed
state, and every state it returns is again well-formed. -/
theorem size_fn_spec (k : Nat) (hk : 7 ≤ k) (st : QState) (hwf : WF st) :
    size (2 ^ k) st ≠ .error .checkFailed ∧
    (∀ n st', size (2 ^ k) st = .ok (n, st') → WF st') := by
  obtain ⟨hh, ht, hr⟩ := hwf
  obtain ⟨hs1, hs2⟩ := shrink_spec k hk st ht
  unfold size
  cases hs : shrink (2 ^ k) st with
  | error e =>
    constructor
    · intro hcontra
      exact hs1 (by rw [hs, Except.error.inj hcontra])
    · intro n st' habs
      exact Except.noConfusion habs
  | ok p =>
    obtain ⟨st1, r⟩ := p
    obtain ⟨ht1, hh1, hr1⟩ := hs2 st1 r hs
    constructor
    · intro habs
      exact Except.noConfusion habs
    · intro n st' hok
      obtain ⟨hn, hst⟩ := Prod.mk.inj (Except.ok.inj hok)
      rw [← hst]
      exact ⟨by rw [hh1]; exact hh, ht1, by rw [hr1]; exact hr⟩

/-- One public operation of the variable-size queue in the sequential model, relating
the state before to the state after. -/
inductive Step (N : Nat) : QState → QState → Prop
  | push (st st' : QState) (data : List Byte) (b : Bool) :
      try_push N st data = .ok (b, st') → Step N st st'
  | pop (st st' : QState) (buffer out : List Byte) (b : Bool) :
      try_pop N st buffer = .ok (b, st', out) → Step N st st'
  | sizeCall (st st' : QState) (n : Nat) :
      size N st = .ok (n, st') → Step N st st'
  | shrinkCall (st st' : QState) (r : Nat) :
      shrink N st = .ok (st', r) → Step N st st'

/-- States reachable from a freshly constructed queue by public operations. -/
def Reachable (N : Nat) (st : QState) : Prop :=
  Relation.ReflTransGen (Step N) initState st

theorem wf_of_step (k : Nat) (hk : 7 ≤ k) (st st' : QState) (hwf : WF st)
    (h : Step (2 ^ k) st st') : WF st' := by
  cases h with
  | push data b hop =>
    exact (tryPushLoop_spec k hk (2 ^ k / kCacheLineSize + 2) st data hwf).2 b st' hop
  | pop buffer out b hop =>
    exact (try_pop_spec k hk st buffer hwf).2 b st' out hop
  | sizeCall n hop =>
    exact (size_fn_spec k hk st hwf).2 n st' hop
  | shrinkCall r hop =>
    obtain ⟨h1, h2, h3⟩ := (shrink_spec k hk st hwf.2.1).2 st' r hop
    exact ⟨by rw [h2]; exact hwf.1, h1, by rw [h3]; exact hwf.2.2⟩

theorem wf_of_reachable (k : Nat) (hk : 7 ≤ k) (st : QState)
    (h : Reachable (2 ^ k) st) : WF st := by
  induction h with
  | refl => exact wf_init
  | tail _ hstep ih => exact wf_of_step k hk _ _ ih hstep

/-- C10. From a freshly constructed variable-size queue, along any sequence of public
operations, every cursor value handed to `get_header` is — after masking its two low
bits — a multiple of the 128-byte cache line modulo `kCapacity`, so the alignment
`CHECK` inside `get_header` never fails: no operation from a reachable state returns the
`checkFailed` outcome, for any loop fuel and any payload. -/
theorem c10_check_never_fails (k : Nat) (hk : 7 ≤ k) (st : QState)
    (hr : Reachable (2 ^ k) st) :
    (∀ fuel data, tryPushLoop (2 ^ k) fuel st data ≠ .error .checkFailed) ∧
    (∀ buffer, try_pop (2 ^ k) st buffer ≠ .error .checkFailed) ∧
    (∀ fuel acc, shrinkLoop (2 ^ k) fuel st acc ≠ .error .checkFailed) ∧
    size (2 ^ k) st ≠ .error .checkFailed := by
  have hwf := wf_of_reachable k hk st hr
  refine ⟨?_, ?_, ?_, ?_⟩
  · intro fuel data
    exact (tryPushLoop_spec k hk fuel st data hwf).1
  · intro buffer
    exact (try_pop_spec k hk st buffer hwf).1
  · intro fuel acc
    exact (shrinkLoop_spec k hk fuel st acc hwf.2.1).1
  · exact (size_fn_spec k hk st hwf).1

/-- Witness for C10 at a concrete input: the freshly constructed 128-byte queue. -/
theorem c10_witness :
    tryPushLoop (2 ^ 7) 3 initState [1, 2, 3] ≠ .error .checkFailed ∧
    try_pop (2 ^ 7) initState [] ≠ .error .checkFailed :=
  ⟨(c10_check_never_fails 7 (by decide) initState Relation.ReflTransGen.refl).1 3 [1, 2, 3],
   (c10_check_never_fails 7 (by decide) initState Relation.ReflTransGen.refl).2.1 []⟩

end ShamVar

namespace ShamFixed

/-- State of one `sham::mpmc::Queue<T, kCapacity>`: per-slot turn counters and payload
storage (`turns i` is `slots_[i].turn`, `vals i` the storage of slot `i`, meaningful
only per the turn protocol), plus the `head_` and `tail_` tickets. -/
structure FQState (T : Type) where
  turns : Nat → Nat
  vals : Nat → T
  head : Nat
  tail : Nat

/-- Source `kInternalCapacity = kCapacity + 1`; `N` is the template argument
`kCapacity`. -/
def kInternalCapacity (N : Nat) : Nat := N + 1

/-- Source `idx(i) = i % kInternalCapacity`. -/
def idx (N i : Nat) : Nat := i % kInternalCapacity N

/-- Source `turn(i) = i / kInternalCapacity`. -/
def turn (N i : Nat) : Nat := i / kInternalCapacity N

/-- The constructor: every slot turn starts at 0 and `head_ = tail_ = 0`; the slot
storage is uninitialised, modelled by a junk value. -/
def initFQ (T : Type) (junk : T) : FQState T :=
  { turns := fun _ => 0, vals := fun _ => junk, head := 0, tail := 0 }

/-- Source `try_emplace(v)` under the sequential interleaving. The `for (;;)` loop runs
exactly one iteration: when the slot turn matches `turn(head) * 2` the CAS on `head_`
succeeds (no interference), the element is constructed in the slot and the turn is
published as `turn(head) * 2 + 1`; otherwise the reloaded `head_` equals the previous
value and the function returns false. -/
def try_emplace (T : Type) (N : Nat) (st : FQState T) (v : T) : Bool × FQState T :=
  if st.turns (idx N st.head) = turn N st.head * 2 then
    (true, { st with head := st.head + 1, vals := Function.update st.vals (idx N st.head) v, turns := Function.update st.turns (idx N st.head) (turn N st.head * 2 + 1) })
  else (false, st)

/-- Source `try_pop(v)` under the sequential interleaving, symmetric to `try_emplace`
on `tail_` with expected turn `turn(tail) * 2 + 1` and published turn
`turn(tail) * 2 + 2`. Returns the popped value, or `none` with `v` untouched. -/
def try_pop (T : Type) (N : Nat) (st : FQState T) : Bool × FQState T × Option T :=
  if st.turns (idx N st.tail) = turn N st.tail * 2 + 1 then
    (true, { st with tail := st.tail + 1, turns := Function.update st.turns (idx N st.tail) (turn N st.tail * 2 + 2) }, some (st.vals (idx N st.tail)))
  else (false, st, none)

/-- Source `size()`: `head_ - tail_` as a signed `ptrdiff_t`. -/
def size (T : Type) (st : FQState T) : Int := (st.head : Int) - (st.tail : Int)

/-- Source `empty()`: `size() <= 0`. -/
def empty (T : Type) (st : FQState T) : Bool := decide (size T st ≤ 0)

/-- Source `capacity()`: the template argument `kCapacity`. -/
def capacity (N : Nat) : Nat := N

/-- Concrete run of the claim's scenario on `Queue<uint64_t, 4>` (modelled with `Nat`
payloads): push `10, 20, 30, 40`, then attempt `try_push(50)`, then attempt
`try_push(60)`, then pop four times and query `empty()`. Reports whether the first four
pushes succeeded, the results of the fifth and sixth push, the four popped values, and
the final `empty()`. -/
def c3run : Bool × Bool × Bool × List (Option Nat) × Bool :=
  let s0 := initFQ Nat 0
  let r1 := try_emplace Nat 4 s0 10
  let r2 := try_emplace Nat 4 r1.2 20
  let r3 := try_emplace Nat 4 r2.2 30
  let r4 := try_emplace Nat 4 r3.2 40
  let r5 := try_emplace Nat 4 r4.2 50
  let r6 := try_emplace Nat 4 r5.2 60
  let q1 := try_pop Nat 4 r6.2
  let q2 := try_pop Nat 4 q1.2.1
  let q3 := try_pop Nat 4 q2.2.1
  let q4 := try_pop Nat 4 q3.2.1
  (r1.1 && r2.1 && r3.1 && r4.1, r5.1, r6.1,
    [q1.2.2, q2.2.2, q3.2.2, q4.2.2], empty Nat q4.2.1)

/-- C3. The claim states that on `FixedMpmc<uint64, 4>`, after four successful pushes,
`try_push(50)` returns false (full at `capacity() == 4`), four pops yield
`10, 20, 30, 40`, and `empty()` ends true. In the source `idx` and `turn` divide by
`kInternalCapacity = kCapacity + 1`, so the ring has 5 usable slots: the fifth push
`try_push(50)` returns `true` (only the sixth returns false), and after four pops one
element remains, so `empty()` is `false` — while `capacity()` still reports 4. -/
theorem c3_fifth_push_succeeds :
    c3run = (true, true, false, [some 10, some 20, some 30, some 40], false) ∧
    capacity 4 = 4 :=
  ⟨rfl, rfl⟩

end ShamFixed

namespace ShamShm

/-- The POSIX shared-memory name registry: the names currently linked on the host. -/
structure Os where
  existing : List String

/-- Source `kInvalidFileHandle = -1` (POSIX branch: handles are `int` descriptors). -/
def kInvalidFileHandle : Int := -1

/-- POSIX `sham::CreateFileMapping`: `shm_open(name, O_RDWR | O_CREAT, 0666)` followed
by `fchmod` and `ftruncate(size)`. Links the name if absent and returns a fresh
descriptor, modelled as 3; creation does not fail in the model. -/
def CreateFileMapping (os : Os) (name : String) (size : Nat) : Int × Os :=
  (3, { existing := if name ∈ os.existing then os.existing else name :: os.existing })

/-- POSIX `sham::OpenFileMapping`: `shm_open(name, O_RDWR, 0600)`, which yields `-1`
when the name is not linked. -/
def OpenFileMapping (os : Os) (name : String) : Int × Os :=
  (if name ∈ os.existing then 3 else -1, os)

/-- POSIX `sham::DestroyFileMapping`:
`if (handle != kInvalidFileHandle) shm_unlink(map_name.c_str())`. It consults only the
handle value, not how the handle was obtained. -/
def DestroyFileMapping (os : Os) (handle : Int) (name : String) : Os :=
  if handle ≠ kInvalidFileHandle then { existing := os.existing.filter (fun s => s ≠ name) } else os

/-- Source `SharedMemoryBuffer::Type`. -/
inductive BufferType where
  | kInvalid
  | kCreate
  | kAccessExisting
deriving DecidableEq

/-- One `sham::SharedMemoryBuffer`: handle, name, bump offset `size_`, `capacity_`, and
whether `MapViewOfFile` produced a valid view (`buffer_ != nullptr`). Note the class
stores no record of the construction type. A pointer into the mapping is modelled as
its byte offset from `data()`. -/
structure SharedMemoryBuffer where
  handle : Int
  name : String
  size : Nat
  capacity : Nat
  bufferValid : Bool

/-- The constructor `SharedMemoryBuffer(name, capacity, type)`: `CreateFileMapping` in
`kCreate` mode, `OpenFileMapping` otherwise, then `MapViewOfFile` (whose `mmap` fails
exactly on an invalid handle in the model). -/
def mkBuffer (os : Os) (name : String) (capacity : Nat) (type : BufferType) :
    SharedMemoryBuffer × Os :=
  let h := if type = BufferType.kCreate then CreateFileMapping os name capacity else OpenFileMapping os name
  ({ handle := h.1, name := name, size := 0, capacity := capacity, bufferValid := h.1 ≠ kInvalidFileHandle }, h.2)

/-- The destructor `~SharedMemoryBuffer()`: `UnMapViewOfFile(buffer_, capacity_)` (no
effect on the name registry) followed by `DestroyFileMapping(handle_, name_)` —
unconditionally, whatever mode the buffer was constructed in. -/
def destroyBuffer (os : Os) (b : SharedMemoryBuffer) : Os :=
  DestroyFileMapping os b.handle b.name

/-- Source `Allocate(num_bytes)`: `size_t next_size = size_ + num_bytes` (64-bit
wrapping addition); if `next_size > capacity_` return null, else return
`buffer_ + size_` (modelled as the offset `size_`) and set `size_ = next_size`. -/
def Allocate (b : SharedMemoryBuffer) (num_bytes : Nat) : Option Nat × SharedMemoryBuffer :=
  let next_size := (b.size + num_bytes) % ShamVar.M64
  if next_size > b.capacity then (none, b)
  else (some b.size, { b with size := next_size })

/-- A host on which the name `/q` is already linked (created by some other process). -/
def os0 : Os := { existing := ["/q"] }

/-- C4. The claim states that destroying a segment constructed in open-existing mode
never unlinks the OS name. In the source the destructor calls `DestroyFileMapping`
unconditionally (the class does not even store the construction type), and the POSIX
`DestroyFileMapping` unlinks whenever the handle is valid: opening the existing name
`/q` in `kAccessExisting` mode yields the valid handle 3, and destroying that buffer
removes `/q` from the host's name registry. -/
theorem c4_open_mode_destroy_unlinks :
    (mkBuffer os0 "/q" 1024 BufferType.kAccessExisting).1.handle = 3 ∧
    (destroyBuffer ((mkBuffer os0 "/q" 1024 BufferType.kAccessExisting).2) ((mkBuffer os0 "/q" 1024 BufferType.kAccessExisting).1)).existing = [] := by
  constructor
  · rfl
  · rfl

/-- A buffer whose bump offset is 50 with capacity 100. -/
def b50 : SharedMemoryBuffer :=
  { handle := 3, name := "/a", size := 50, capacity := 100, bufferValid := true }

/-- Counterexample for C7. The claim states `Allocate(n)` returns null whenever
`old offset + n > capacity`. With `n = 2^64 − 10` the `size_t` sum `size_ + n` wraps to
40, the capacity check passes, and `Allocate` returns the pointer at offset 50 while
moving the bump offset backwards to 40 — although `50 + n` far exceeds the capacity
100. -/
theorem c7_overflow_counterexample :
    Allocate b50 (ShamVar.M64 - 10) = (some 50, { b50 with size := 40 }) ∧
    b50.size + (ShamVar.M64 - 10) > b50.capacity := by
  constructor
  · rfl
  · decide

/-- C7 as amended: in the absence of `size_t` overflow of `size_ + n`, `Allocate(n)`
returns the pointer `data() + size_` and advances the bump offset by exactly `n` when
`size_ + n ≤ capacity`, returns null leaving the offset unchanged when
`size_ + n > capacity`; and — with or without overflow — every call preserves the
invariant `bump offset ≤ capacity`. -/
theorem c7_allocate_amended (b : SharedMemoryBuffer) (n : Nat)
    (hno : b.size + n < ShamVar.M64) :
    (b.size + n ≤ b.capacity →
      Allocate b n = (some b.size, { b with size := b.size + n })) ∧
    (b.size + n > b.capacity → Allocate b n = (none, b)) ∧
    (∀ m, b.size ≤ b.capacity → ((Allocate b m).2).size ≤ b.capacity) := by
  refine ⟨?_, ?_, ?_⟩
  · intro hle
    unfold Allocate
    rw [Nat.mod_eq_of_lt hno, if_neg (by omega)]
  · intro hgt
    unfold Allocate
    rw [Nat.mod_eq_of_lt hno, if_pos (by omega)]
  · intro m hm
    show (if (b.size + m) % ShamVar.M64 > b.capacity then (none, b) else (some b.size, { b with size := (b.size + m) % ShamVar.M64 })).2.size ≤ b.capacity
    split
    · exact hm
    · next h =>
      show (b.size + m) % ShamVar.M64 ≤ b.capacity
      omega

/-- Witness for C7 at a concrete input: allocating 8 bytes from a fresh 100-byte
buffer. -/
theorem c7_witness :
    Allocate { handle := 3, name := "/a", size := 0, capacity := 100, bufferValid := true } 8 =
      (some 0, { handle := 3, name := "/a", size := 8, capacity := 100, bufferValid := true }) :=
  (c7_allocate_amended { handle := 3, name := "/a", size := 0, capacity := 100, bufferValid := true } 8 (by decide)).1 (by decide)

/-- Counterexample for C8. The claim states that calling `Allocate` on a segment
constructed in open-existing mode triggers a fatal assertion. The source contains no
assertion at all (no mode is even recorded): on a buffer opened over the existing name
`/q`, `Allocate(8)` returns the pointer at offset 0 normally. -/
theorem c8_no_assertion_counterexample :
    (Allocate ((mkBuffer os0 "/q" 1024 BufferType.kAccessExisting).1) 8).1 = some 0 := by
  rfl

/-- C8 as amended: `Allocate` on an open-existing-mode segment is not diagnosed — the
construction mode is not stored and the buffer a successful open produces is equal to
the one create mode produces, so `Allocate` bump-allocates exactly as in create mode. -/
theorem c8_allocate_mode_oblivious (os : Os) (name : String) (cap n : Nat)
    (hmem : name ∈ os.existing) :
    (mkBuffer os name cap BufferType.kAccessExisting).1 = (mkBuffer os name cap BufferType.kCreate).1 ∧
    Allocate ((mkBuffer os name cap BufferType.kAccessExisting).1) n = Allocate ((mkBuffer os name cap BufferType.kCreate).1) n := by
  have h1 : (mkBuffer os name cap BufferType.kAccessExisting).1 = (mkBuffer os name cap BufferType.kCreate).1 := by
    simp [mkBuffer, CreateFileMapping, OpenFileMapping, hmem]
  exact ⟨h1, by rw [h1]⟩

/-- Witness for C8 at a concrete input: the host `os0` with `/q` linked. -/
theorem c8_witness :
    (mkBuffer os0 "/q" 1024 BufferType.kAccessExisting).1 = (mkBuffer os0 "/q" 1024 BufferType.kCreate).1 :=
  (c8_allocate_mode_oblivious os0 "/q" 1024 8 (by decide)).1

end ShamShm

namespace ShamLayout

/-- Round `n` up to the next multiple of the alignment `a`: C++ places each member at
the previous end rounded up to the member's alignment, and pads the structure size to a
multiple of the structure's alignment. -/
def roundUp (n a : Nat) : Nat := (n + a - 1) / a * a

/-- Size and alignment of a C++ payload type `T`. -/
structure CType where
  size : Nat
  align : Nat

/-- The source's `hardwareInterferenceSize`:
`std::hardware_destructive_interference_size` when the feature-test macro is available
(64 on mainstream x86-64 toolchains), and 64 in the `#else` fallback branch. -/
def hardwareInterferenceSize : Nat := 64

/-- `alignof(Slot<T>)`: the `alignas(hardwareInterferenceSize)` on `turn` joined with
the alignment of the storage. -/
def slotAlign (cls : Nat) (T : CType) : Nat := max cls T.align

/-- Offset of `storage` inside `Slot<T>`: the 8-byte `std::atomic<size_t> turn`
rounded up to `alignof(T)`. -/
def storageOffset (T : CType) : Nat := roundUp 8 T.align

/-- `sizeof(Slot<T>)`: the end of `storage`, rounded up to the slot alignment. -/
def slotSize (cls : Nat) (T : CType) : Nat :=
  roundUp (storageOffset T + T.size) (slotAlign cls T)

/-- `offsetof(Queue, head_)`: the array `slots_[kCapacity + 1]` ends at
`(N + 1) * sizeof(Slot<T>)`, and `head_` carries `alignas(hardwareInterferenceSize)`. -/
def headOffset (cls : Nat) (T : CType) (N : Nat) : Nat :=
  roundUp ((N + 1) * slotSize cls T) cls

/-- `offsetof(Queue, tail_)`: `head_` is an 8-byte `std::atomic<size_t>`, and `tail_`
carries `alignas(hardwareInterferenceSize)`. -/
def tailOffset (cls : Nat) (T : CType) (N : Nat) : Nat :=
  roundUp (headOffset cls T N + 8) cls

/-- `sizeof(Queue<T, N>)`: the end of `tail_` rounded up to the structure alignment. -/
def queueSize (cls : Nat) (T : CType) (N : Nat) : Nat :=
  roundUp (tailOffset cls T N + 8) (max (slotAlign cls T) cls)

/-- The `uint64_t` payload of the claim's scenario. -/
def uint64 : CType := { size := 8, align := 8 }

theorem roundUp_mod_64 (n : Nat) : roundUp n 64 % 64 = 0 := by
  unfold roundUp
  omega

theorem roundUp_add8_64 (n : Nat) (h : n % 64 = 0) : roundUp (n + 8) 64 = n + 64 := by
  unfold roundUp
  omega

/-- Counterexample for C9. The claim fixes the cache line at 128 bytes. With the
source's `hardwareInterferenceSize` (64, the value of the `#else` branch and of
mainstream x86-64 toolchains), `Queue<uint64_t, 4>` has
`offsetof(tail_) − offsetof(head_) = 384 − 320 = 64 ≠ 128` and
`sizeof(Queue) = 448`, whose remainder modulo 128 is 64, not 0. -/
theorem c9_layout_128_counterexample :
    tailOffset hardwareInterferenceSize uint64 4 - headOffset hardwareInterferenceSize uint64 4 = 64 ∧
    (64 : Nat) ≠ 128 ∧
    queueSize hardwareInterferenceSize uint64 4 % 128 = 64 := by
  refine ⟨by decide, by decide, by decide⟩

/-- C9 as amended: with the cache line equal to the source's
`hardwareInterferenceSize = 64` (not 128), the layout of `Queue<T, N>` satisfies
`offsetof(tail_) − offsetof(head_) == cacheLine` and
`sizeof(Queue) mod cacheLine == 0`, for every element type whose alignment divides the
cache line — which the source's `static_assert(alignof(Slot<T>) == hardwareInterferenceSize)`
requires anyway. -/
theorem c9_layout_hwis (T : CType) (N : Nat) (h1 : 0 < T.align) (h2 : T.align ∣ 64) :
    tailOffset hardwareInterferenceSize T N - headOffset hardwareInterferenceSize T N = hardwareInterferenceSize ∧
    queueSize hardwareInterferenceSize T N % hardwareInterferenceSize = 0 := by
  have hle : T.align ≤ 64 := Nat.le_of_dvd (by norm_num) h2
  have hsa : slotAlign 64 T = 64 := by
    unfold slotAlign
    omega
  have hho : headOffset 64 T N % 64 = 0 := by
    unfold headOffset
    exact roundUp_mod_64 _
  have hto : tailOffset 64 T N = headOffset 64 T N + 64 := by
    unfold tailOffset
    exact roundUp_add8_64 _ hho
  have hqa : max (slotAlign 64 T) 64 = 64 := by
    rw [hsa, Nat.max_self]
  constructor
  · show tailOffset 64 T N - headOffset 64 T N = 64
    omega
  · show queueSize 64 T N % 64 = 0
    unfold queueSize
    rw [hqa]
    exact roundUp_mod_64 _

/-- Witness for C9 at a concrete input: `Queue<uint64_t, 4>`. -/
theorem c9_witness :
    tailOffset hardwareInterferenceSize uint64 4 - headOffset hardwareInterferenceSize uint64 4 = hardwareInterferenceSize ∧
    queueSize hardwareInterferenceSize uint64 4 % hardwareInterferenceSize = 0 :=
  c9_layout_hwis uint64 4 (by decide) (by decide)

end ShamLayout
